import Mathlib

/-!
Verification of `src/admin/ml-image-updates/js/app.js` (cloud-derby image
scanning job): a shallow embedding of the pipeline
`processAllFiles → processOneFile → recognizeObjects →
recognizeObjectAPIAsync / createVisionResponse → findObject`,
together with proofs of the spec's claims about it.

The data entities `BoundingBox` and `VisionResponse` are imported by app.js
from `cloud/controller/js/`, which is not part of the sources under
verification; they are modelled from the spec (§3 of spec.md) and marked as
such in their doc comments.
-/

/-- Modelled from the spec: `BoundingBox` (imported by app.js from
`cloud/controller/js/bounding-box.js`, absent from the sources): one
detected-object rectangle with a label, position, size and confidence score,
immutable once constructed. The numeric fields are modelled as integers; the
pipeline copies them verbatim and never computes with them. -/
structure BoundingBox where
  label : String
  x : Int
  y : Int
  w : Int
  h : Int
  score : Int
deriving DecidableEq, Repr

/-- Modelled from the spec: `VisionResponse` (the spec's DetectionResponse,
imported by app.js from `cloud/controller/js/vision-response.js`, absent from
the sources): an ordered sequence of bounding boxes; `new VisionResponse()`
is the empty response. -/
structure VisionResponse where
  bBoxes : List BoundingBox
deriving DecidableEq, Repr

/-- Modelled from the spec: `addBox` appends one box; insertion order is
parse order. -/
def VisionResponse.addBox (vr : VisionResponse) (b : BoundingBox) : VisionResponse :=
  { bBoxes := vr.bBoxes ++ [b] }

/-- The empty response, `new VisionResponse()`. -/
def VisionResponse.empty : VisionResponse := { bBoxes := [] }

/-- JS `toLowerCase()` / `toLocaleLowerCase()`, modelled on the character
sequence of the string. -/
def jsToLower (s : String) : List Char := s.data.map Char.toLower

/-- JS `indexOf` on character sequences, accumulating the current position
`k`: the index of the first occurrence of `pat` in `hay` at or after the
start, or `-1` when there is none. -/
def jsIndexOfAux (pat : List Char) : List Char → Nat → Int
  | [], k => if pat.isPrefixOf ([] : List Char) then (k : Int) else -1
  | c :: t, k => if pat.isPrefixOf (c :: t) then (k : Int) else jsIndexOfAux pat t (k + 1)

/-- JS `hay.indexOf(pat)`. -/
def jsIndexOf (hay pat : List Char) : Int := jsIndexOfAux pat hay 0

/-- The per-box test of app.js line 91:
`bBoxes[i].label.toLocaleLowerCase().indexOf(objectType.toLowerCase()) >= 0`. -/
def labelTest (objectType : String) (b : BoundingBox) : Bool :=
  decide (0 ≤ jsIndexOf (jsToLower b.label) (jsToLower objectType))

/-- The loop `for (let i = visionResponse.bBoxes.length; i--;)` of
`findObject` (app.js lines 89–94): visits indices `n-1, …, 0` and returns
true at the first index whose box passes `labelTest`. -/
def findObjectLoop (objectType : String) (boxes : List BoundingBox) : Nat → Bool
  | 0 => false
  | i + 1 =>
    match boxes[i]? with
    | some b => if labelTest objectType b then true else findObjectLoop objectType boxes i
    | none => findObjectLoop objectType boxes i

/-- Function `findObject` (app.js lines 83–96): the spec's `LabelMatcher.matches`. -/
def findObject (objectType : String) (visionResponse : VisionResponse) : Bool :=
  findObjectLoop objectType visionResponse.bBoxes visionResponse.bBoxes.length

/-- Predicate: `pat` occurs as a contiguous substring of `hay`. -/
def SubstringOf (pat hay : List Char) : Prop :=
  ∃ pre post, hay = pre ++ pat ++ post

theorem isPrefixOf_iff_append (pat hay : List Char) :
    pat.isPrefixOf hay = true ↔ ∃ t, hay = pat ++ t := by
  induction pat generalizing hay with
  | nil => simp [List.isPrefixOf]
  | cons a as ih =>
    cases hay with
    | nil => simp [List.isPrefixOf]
    | cons b bs =>
      simp only [List.isPrefixOf, Bool.and_eq_true, beq_iff_eq, ih, List.cons_append,
        List.cons.injEq]
      constructor
      · rintro ⟨rfl, t, rfl⟩
        exact ⟨t, rfl, rfl⟩
      · rintro ⟨t, rfl, rfl⟩
        exact ⟨rfl, t, rfl⟩

theorem jsIndexOfAux_nonneg_iff (pat hay : List Char) :
    ∀ k : Nat, (0 ≤ jsIndexOfAux pat hay k ↔ SubstringOf pat hay) := by
  induction hay with
  | nil =>
    intro k
    rw [jsIndexOfAux]
    by_cases h : pat.isPrefixOf ([] : List Char) = true
    · obtain ⟨t, ht⟩ := (isPrefixOf_iff_append pat []).mp h
      have hpat : pat = [] := by
        cases pat with
        | nil => rfl
        | cons x xs => simp at ht
      subst hpat
      rw [if_pos h]
      constructor
      · intro _
        exact ⟨[], [], rfl⟩
      · intro _
        exact Int.ofNat_nonneg k
    · rw [if_neg h]
      constructor
      · intro hle
        exact absurd hle (by decide)
      · rintro ⟨pre, post, hsplit⟩
        exfalso
        have hpat : pat = [] := by
          have h1 := List.append_eq_nil.mp hsplit.symm
          exact (List.append_eq_nil.mp h1.1).2
        subst hpat
        simp [List.isPrefixOf] at h
  | cons c t ih =>
    intro k
    rw [jsIndexOfAux]
    by_cases h : pat.isPrefixOf (c :: t) = true
    · obtain ⟨s, hs⟩ := (isPrefixOf_iff_append pat (c :: t)).mp h
      rw [if_pos h]
      constructor
      · intro _
        exact ⟨[], s, by simpa using hs⟩
      · intro _
        exact Int.ofNat_nonneg k
    · rw [if_neg h]
      rw [ih (k + 1)]
      constructor
      · rintro ⟨pre, post, hsplit⟩
        exact ⟨c :: pre, post, by simpa using hsplit⟩
      · rintro ⟨pre, post, hsplit⟩
        cases pre with
        | nil =>
          exfalso
          apply h
          exact (isPrefixOf_iff_append pat (c :: t)).mpr ⟨post, by simpa using hsplit⟩
        | cons p ps =>
          simp only [List.cons_append] at hsplit
          injection hsplit with h1 h2
          exact ⟨ps, post, h2⟩

theorem labelTest_iff (objectType : String) (b : BoundingBox) :
    labelTest objectType b = true ↔
      SubstringOf (jsToLower objectType) (jsToLower b.label) := by
  rw [labelTest, decide_eq_true_iff, jsIndexOf]
  exact jsIndexOfAux_nonneg_iff (jsToLower objectType) (jsToLower b.label) 0

theorem findObjectLoop_iff (objectType : String) (boxes : List BoundingBox) :
    ∀ n : Nat, (findObjectLoop objectType boxes n = true ↔
      ∃ i, i < n ∧ ∃ b, boxes[i]? = some b ∧ labelTest objectType b = true) := by
  intro n
  induction n with
  | zero => simp [findObjectLoop]
  | succ m ih =>
    rw [findObjectLoop]
    cases hm : boxes[m]? with
    | some b =>
      dsimp only
      by_cases hb : labelTest objectType b = true
      · rw [if_pos hb]
        constructor
        · intro _
          exact ⟨m, Nat.lt_succ_self m, b, hm, hb⟩
        · intro _
          rfl
      · rw [if_neg hb, ih]
        constructor
        · rintro ⟨i, hi, b2, hb2, ht⟩
          exact ⟨i, Nat.lt_succ_of_lt hi, b2, hb2, ht⟩
        · rintro ⟨i, hi, b2, hb2, ht⟩
          rcases Nat.lt_succ_iff_lt_or_eq.mp hi with hlt | heq
          · exact ⟨i, hlt, b2, hb2, ht⟩
          · subst heq
            rw [hm] at hb2
            injection hb2 with hbb
            subst hbb
            exact absurd ht hb
    | none =>
      dsimp only
      rw [ih]
      have hlen : boxes.length ≤ m := by
        by_contra hc
        push_neg at hc
        rw [List.getElem?_eq_getElem hc] at hm
        cases hm
      constructor
      · rintro ⟨i, hi, b2, hb2, ht⟩
        exact ⟨i, Nat.lt_succ_of_lt hi, b2, hb2, ht⟩
      · rintro ⟨i, hi, b2, hb2, ht⟩
        have hilen : i < boxes.length := by
          by_contra hc
          push_neg at hc
          rw [List.getElem?_eq_none hc] at hb2
          cases hb2
        exact ⟨i, by omega, b2, hb2, ht⟩

theorem findObject_eq_any (objectType : String) (vr : VisionResponse) :
    findObject objectType vr = vr.bBoxes.any (labelTest objectType) := by
  rw [Bool.eq_iff_iff, findObject, findObjectLoop_iff, List.any_eq_true]
  constructor
  · rintro ⟨i, _, b, hb, ht⟩
    exact ⟨b, List.getElem?_mem hb, ht⟩
  · rintro ⟨b, hmem, ht⟩
    obtain ⟨i, hi⟩ := List.mem_iff_getElem?.mp hmem
    have hilen : i < vr.bBoxes.length := by
      by_contra hc
      push_neg at hc
      rw [List.getElem?_eq_none hc] at hi
      cases hi
    exact ⟨i, hilen, b, hi, ht⟩

/-- C1: for every target label and every `VisionResponse`, `findObject`
(the spec's `LabelMatcher.matches`) returns true iff some bounding box of
the response has a label that, lower-cased, contains the lower-cased target
label as a contiguous substring; in particular it returns false on the
empty response. -/
theorem findObject_matches_iff (objectType : String) (vr : VisionResponse) :
    (findObject objectType vr = true ↔
      ∃ b ∈ vr.bBoxes, SubstringOf (jsToLower objectType) (jsToLower b.label)) ∧
    findObject objectType { bBoxes := [] } = false := by
  constructor
  · rw [findObject_eq_any, List.any_eq_true]
    constructor
    · rintro ⟨b, hmem, ht⟩
      exact ⟨b, hmem, (labelTest_iff objectType b).mp ht⟩
    · rintro ⟨b, hmem, hsub⟩
      exact ⟨b, hmem, (labelTest_iff objectType b).mpr hsub⟩
  · rfl

/-- C9: the boolean returned by `findObject` is invariant under any
permutation of the response's box sequence. -/
theorem findObject_perm_invariant (objectType : String) (vr₁ vr₂ : VisionResponse)
    (h : vr₁.bBoxes.Perm vr₂.bBoxes) :
    findObject objectType vr₁ = findObject objectType vr₂ := by
  rw [findObject_eq_any, findObject_eq_any, Bool.eq_iff_iff,
    List.any_eq_true, List.any_eq_true]
  constructor
  · rintro ⟨b, hmem, ht⟩
    exact ⟨b, h.mem_iff.mp hmem, ht⟩
  · rintro ⟨b, hmem, ht⟩
    exact ⟨b, h.mem_iff.mpr hmem, ht⟩

/-- Witness for C9: swapping two concrete boxes does not change the result of
the search for "car". -/
theorem findObject_perm_invariant_witness :
    findObject "car" { bBoxes := [⟨"Car", 0, 0, 10, 10, 9⟩, ⟨"Tractor", 1, 2, 3, 4, 5⟩] } =
      findObject "car" { bBoxes := [⟨"Tractor", 1, 2, 3, 4, 5⟩, ⟨"Car", 0, 0, 10, 10, 9⟩] } :=
  findObject_perm_invariant "car"
    { bBoxes := [⟨"Car", 0, 0, 10, 10, 9⟩, ⟨"Tractor", 1, 2, 3, 4, 5⟩] }
    { bBoxes := [⟨"Tractor", 1, 2, 3, 4, 5⟩, ⟨"Car", 0, 0, 10, 10, 9⟩] }
    (List.Perm.swap (⟨"Tractor", 1, 2, 3, 4, 5⟩ : BoundingBox)
      (⟨"Car", 0, 0, 10, 10, 9⟩ : BoundingBox) [])

/-- C10: with the empty string as target label, `findObject` returns true on
every non-empty response (the empty pattern occurs in every label) and false
exactly on the empty response. -/
theorem findObject_empty_target (vr : VisionResponse) :
    findObject "" vr = !vr.bBoxes.isEmpty := by
  rw [findObject_eq_any]
  have hl : ∀ b : BoundingBox, labelTest "" b = true := by
    intro b
    rw [labelTest, decide_eq_true_iff, jsIndexOf]
    have hempty : jsToLower "" = [] := rfl
    rw [hempty]
    cases hlab : jsToLower b.label with
    | nil => simp [jsIndexOfAux, List.isPrefixOf]
    | cons c t => simp [jsIndexOfAux, List.isPrefixOf]
  cases vr.bBoxes with
  | nil => rfl
  | cons b bs => simp [List.any_cons, hl]

/-- The spec's `ParseError` (§7): the two failure sites of
`createVisionResponse` — `JSON.parse` failure, and a record missing an
expected field. -/
inductive ParseError
  | invalidJson
  | missingField (key : String)
deriving DecidableEq, Repr

/-- One detection record of the JSON payload; each of the five expected
fields may be absent. -/
structure RawRecord where
  x : Option Int
  y : Option Int
  w : Option Int
  h : Option Int
  score : Option Int
deriving DecidableEq, Repr

/-- The result of JS `JSON.parse` on a response body: either a parse failure,
or an object mapping label keys (in iteration order) to sequences of
detection records. -/
inductive RawJson
  | invalid
  | object (payload : List (String × List RawRecord))
deriving DecidableEq, Repr

/-- All five expected fields are present in the record. -/
def RawRecord.complete (r : RawRecord) : Bool :=
  r.x.isSome && r.y.isSome && r.w.isSome && r.h.isSome && r.score.isSome

/-- Reading the five expected fields of one record and constructing the box
(app.js line 135). Modelled from the spec: per §4.1 a record missing an
expected field makes the parse fail with a ParseError (the `BoundingBox`
constructor itself lives in `cloud/controller/js/bounding-box.js`, absent
from the sources). -/
def mkBoundingBox (key : String) (r : RawRecord) : Except ParseError BoundingBox :=
  match r.x, r.y, r.w, r.h, r.score with
  | some x, some y, some w, some h, some score =>
    Except.ok { label := key, x := x, y := y, w := w, h := h, score := score }
  | _, _, _, _, _ => Except.error (ParseError.missingField key)

/-- The inner loop of `createVisionResponse` (app.js lines 133–137): one box
per record under the current key, added in sequence order. -/
def parseRecords (key : String) :
    List RawRecord → VisionResponse → Except ParseError VisionResponse
  | [], acc => Except.ok acc
  | r :: rest, acc =>
    match mkBoundingBox key r with
    | Except.error e => Except.error e
    | Except.ok b => parseRecords key rest (acc.addBox b)

/-- The outer loop of `createVisionResponse` (app.js lines 132–138): the keys
of the parsed object, in iteration order. -/
def parseKeys :
    List (String × List RawRecord) → VisionResponse → Except ParseError VisionResponse
  | [], acc => Except.ok acc
  | (key, records) :: rest, acc =>
    match parseRecords key records acc with
    | Except.error e => Except.error e
    | Except.ok acc2 => parseKeys rest acc2

/-- Function `createVisionResponse` (app.js lines 128–140), the spec's
`ResponseParser.parse`: `JSON.parse` the body, then build one box per record
under each key. -/
def createVisionResponse : RawJson → Except ParseError VisionResponse
  | RawJson.invalid => Except.error ParseError.invalidJson
  | RawJson.object payload => parseKeys payload VisionResponse.empty

/-- A complete detection record, all five expected fields present. -/
structure DetRecord where
  x : Int
  y : Int
  w : Int
  h : Int
  score : Int
deriving DecidableEq, Repr

/-- The raw form of a complete record. -/
def DetRecord.toRaw (r : DetRecord) : RawRecord :=
  { x := some r.x, y := some r.y, w := some r.w, h := some r.h, score := some r.score }

/-- The box a complete record found under `key` must produce: label = key,
geometry and score verbatim. -/
def DetRecord.toBox (key : String) (r : DetRecord) : BoundingBox :=
  { label := key, x := r.x, y := r.y, w := r.w, h := r.h, score := r.score }

/-- A valid detection payload: label keys with sequences of complete
records. -/
def validPayload (p : List (String × List DetRecord)) : List (String × List RawRecord) :=
  p.map (fun kv => (kv.1, kv.2.map DetRecord.toRaw))

/-- The boxes a valid payload must produce, in encounter order: outer key
iteration order, then inner sequence order. -/
def expectedBoxes (p : List (String × List DetRecord)) : List BoundingBox :=
  (p.map (fun kv => kv.2.map (DetRecord.toBox kv.1))).flatten

theorem parseRecords_complete (key : String) (rs : List DetRecord) :
    ∀ acc : VisionResponse,
      parseRecords key (rs.map DetRecord.toRaw) acc =
        Except.ok { bBoxes := acc.bBoxes ++ rs.map (DetRecord.toBox key) } := by
  induction rs with
  | nil =>
    intro acc
    simp [parseRecords]
  | cons r rest ih =>
    intro acc
    rw [List.map_cons, parseRecords]
    have hmk : mkBoundingBox key r.toRaw = Except.ok (DetRecord.toBox key r) := rfl
    rw [hmk]
    dsimp only
    rw [ih (acc.addBox (DetRecord.toBox key r))]
    simp [VisionResponse.addBox]

theorem parseKeys_valid (p : List (String × List DetRecord)) :
    ∀ acc : VisionResponse,
      parseKeys (validPayload p) acc =
        Except.ok { bBoxes := acc.bBoxes ++ expectedBoxes p } := by
  induction p with
  | nil =>
    intro acc
    simp [validPayload, parseKeys, expectedBoxes]
  | cons kv rest ih =>
    intro acc
    obtain ⟨key, rs⟩ := kv
    rw [validPayload, List.map_cons]
    rw [parseKeys, parseRecords_complete key rs acc]
    dsimp only
    rw [show (rest.map fun kv => (kv.1, kv.2.map DetRecord.toRaw)) = validPayload rest from rfl]
    rw [ih { bBoxes := acc.bBoxes ++ rs.map (DetRecord.toBox key) }]
    simp [expectedBoxes]

/-- C3: parsing a valid payload produces exactly one box per record, with
label equal to the key the record was found under and `x`, `y`, `w`, `h`,
`score` copied verbatim, in encounter order (outer key iteration order, then
inner sequence order). -/
theorem createVisionResponse_verbatim (p : List (String × List DetRecord)) :
    createVisionResponse (RawJson.object (validPayload p)) =
      Except.ok { bBoxes := expectedBoxes p } := by
  rw [createVisionResponse, parseKeys_valid]
  rfl

/-- C2: on a valid payload the parse succeeds and the number of boxes equals
the total number of records summed across all label keys. -/
theorem createVisionResponse_count (p : List (String × List DetRecord)) :
    ∃ resp, createVisionResponse (RawJson.object (validPayload p)) = Except.ok resp ∧
      resp.bBoxes.length = (p.map (fun kv => kv.2.length)).sum := by
  refine ⟨{ bBoxes := expectedBoxes p }, ?_, ?_⟩
  · rw [createVisionResponse, parseKeys_valid]
    rfl
  · rw [expectedBoxes]
    have hfun :
        (List.length ∘ fun kv : String × List DetRecord =>
          List.map (DetRecord.toBox kv.1) kv.2) = fun kv => kv.2.length := by
      funext kv
      simp
    rw [List.length_flatten, List.map_map, hfun]

theorem mkBoundingBox_incomplete (key : String) (r : RawRecord)
    (hr : r.complete = false) :
    mkBoundingBox key r = Except.error (ParseError.missingField key) := by
  obtain ⟨x, y, w, h, s⟩ := r
  cases x <;> cases y <;> cases w <;> cases h <;> cases s <;>
    first
      | rfl
      | simp [RawRecord.complete] at hr

theorem parseRecords_incomplete (key : String) (rs : List RawRecord)
    (h : ∃ r ∈ rs, r.complete = false) :
    ∀ acc : VisionResponse, ∃ e, parseRecords key rs acc = Except.error e := by
  induction rs with
  | nil => simp at h
  | cons r rest ih =>
    intro acc
    by_cases hr : r.complete = false
    · rw [parseRecords, mkBoundingBox_incomplete key r hr]
      exact ⟨ParseError.missingField key, rfl⟩
    · have hrest : ∃ r2 ∈ rest, r2.complete = false := by
        rcases h with ⟨r2, hmem, hc⟩
        rcases List.mem_cons.mp hmem with heq | hmem2
        · subst heq
          exact absurd hc hr
        · exact ⟨r2, hmem2, hc⟩
      rw [parseRecords]
      cases hmk : mkBoundingBox key r with
      | error e => exact ⟨e, rfl⟩
      | ok b =>
        dsimp only
        exact ih hrest (acc.addBox b)

theorem parseKeys_incomplete (p : List (String × List RawRecord))
    (h : ∃ kv ∈ p, ∃ r ∈ kv.2, r.complete = false) :
    ∀ acc : VisionResponse, ∃ e, parseKeys p acc = Except.error e := by
  induction p with
  | nil => simp at h
  | cons kv rest ih =>
    intro acc
    obtain ⟨key, rs⟩ := kv
    by_cases hk : ∃ r ∈ rs, r.complete = false
    · obtain ⟨e, he⟩ := parseRecords_incomplete key rs hk acc
      rw [parseKeys, he]
      exact ⟨e, rfl⟩
    · have hrest : ∃ kv2 ∈ rest, ∃ r ∈ kv2.2, r.complete = false := by
        rcases h with ⟨kv2, hmem, hc⟩
        rcases List.mem_cons.mp hmem with heq | hmem2
        · subst heq
          exact absurd hc hk
        · exact ⟨kv2, hmem2, hc⟩
      rw [parseKeys]
      cases hpr : parseRecords key rs acc with
      | error e => exact ⟨e, rfl⟩
      | ok acc2 =>
        dsimp only
        exact ih hrest acc2

/-- C4: `createVisionResponse` fails with a ParseError when its input is not
valid JSON, and also fails when the input is valid JSON but some detection
record is missing one of the expected fields `x`, `y`, `w`, `h`, `score`. -/
theorem createVisionResponse_error (p : List (String × List RawRecord))
    (h : ∃ kv ∈ p, ∃ r ∈ kv.2, r.complete = false) :
    createVisionResponse RawJson.invalid = Except.error ParseError.invalidJson ∧
    ∃ e, createVisionResponse (RawJson.object p) = Except.error e := by
  refine ⟨rfl, ?_⟩
  obtain ⟨e, he⟩ := parseKeys_incomplete p h VisionResponse.empty
  refine ⟨e, ?_⟩
  rw [createVisionResponse]
  exact he

/-- Witness for C4: a payload whose single record under "car" lacks the `x`
field makes the parse fail, and invalid JSON makes it fail. -/
theorem createVisionResponse_error_witness :
    createVisionResponse RawJson.invalid = Except.error ParseError.invalidJson ∧
    ∃ e, createVisionResponse
        (RawJson.object [("car", [⟨none, some 2, some 3, some 4, some 5⟩])]) =
      Except.error e :=
  createVisionResponse_error [("car", [⟨none, some 2, some 3, some 4, some 5⟩])]
    ⟨("car", [⟨none, some 2, some 3, some 4, some 5⟩]), by simp,
      ⟨none, some 2, some 3, some 4, some 5⟩, by simp, rfl⟩

/-- The outcome of the single HTTP request issued by `request({uri, auth},
callback)` in app.js line 167: either a transport error (`err` truthy in the
callback) or a response with a status code and a body. -/
inductive HttpOutcome
  | transportError (cause : String)
  | response (statusCode : Nat) (body : String)
deriving DecidableEq, Repr

/-- The spec's error kinds for the inference client (§7), labelling the three
reject sites of `recognizeObjectAPIAsync` (app.js lines 153, 156, 170,
174). -/
inductive APIError
  | invalidInput (msg : String)
  | network (cause : String)
  | upstream (statusCode : Nat)
deriving DecidableEq, Repr

/-- Function `recognizeObjectAPIAsync` (app.js lines 149–182), the spec's
`InferenceClient.detectObjects`: validate the URI, then issue one HTTP
request whose outcome is `net`. The first component records whether the
request was issued; the second is the settled promise: `resolve(body)` on
status 200, otherwise the reject of the corresponding site. JS `!gcsURI` is
the empty-string test, and `gcsURI.startsWith("gs://")` is the character
prefix test. -/
def recognizeObjectAPIAsync (gcsURI : String) (net : HttpOutcome) :
    Bool × Except APIError String :=
  if gcsURI = "" then
    (false, Except.error (APIError.invalidInput "Error: No gcURI found in sensorMessage"))
  else if !("gs://".data.isPrefixOf gcsURI.data) then
    (false, Except.error (APIError.invalidInput "Error: gcsURI must start with gs://"))
  else
    match net with
    | HttpOutcome.transportError cause =>
      (true, Except.error (APIError.network cause))
    | HttpOutcome.response statusCode body =>
      if statusCode ≠ 200 then (true, Except.error (APIError.upstream statusCode))
      else (true, Except.ok body)

/-- C5: on an empty storage URI, or one that does not begin with "gs://",
`recognizeObjectAPIAsync` fails with an InvalidInputError and no HTTP request
is issued — for every possible network outcome, so the failure precedes any
network interaction. -/
theorem recognizeObjectAPIAsync_invalid (gcsURI : String) (net : HttpOutcome)
    (h : gcsURI = "" ∨ "gs://".data.isPrefixOf gcsURI.data = false) :
    (recognizeObjectAPIAsync gcsURI net).1 = false ∧
    ∃ msg, (recognizeObjectAPIAsync gcsURI net).2 =
      Except.error (APIError.invalidInput msg) := by
  by_cases he : gcsURI = ""
  · subst he
    exact ⟨rfl, "Error: No gcURI found in sensorMessage", rfl⟩
  · have hpre : "gs://".data.isPrefixOf gcsURI.data = false := by
      rcases h with h1 | h2
      · exact absurd h1 he
      · exact h2
    constructor
    · simp [recognizeObjectAPIAsync, he, hpre]
    · refine ⟨"Error: gcsURI must start with gs://", ?_⟩
      simp [recognizeObjectAPIAsync, he, hpre]

/-- Witness for C5: the empty URI is rejected as invalid input with the
request flag false, whatever the network would have answered. -/
theorem recognizeObjectAPIAsync_invalid_witness :
    (recognizeObjectAPIAsync "" (HttpOutcome.transportError "down")).1 = false ∧
    ∃ msg, (recognizeObjectAPIAsync "" (HttpOutcome.transportError "down")).2 =
      Except.error (APIError.invalidInput msg) :=
  recognizeObjectAPIAsync_invalid "" (HttpOutcome.transportError "down") (Or.inl rfl)

/-- C6: for a valid storage URI the request is issued and the three outcomes
are exhaustive and mutually exclusive: the promise resolves with the raw body
exactly when the HTTP status is 200; a transport error rejects with a
NetworkError carrying the cause; a non-200 status rejects with an
UpstreamError carrying the status code. -/
theorem recognizeObjectAPIAsync_outcomes (gcsURI : String) (net : HttpOutcome)
    (h1 : gcsURI ≠ "") (h2 : "gs://".data.isPrefixOf gcsURI.data = true) :
    (recognizeObjectAPIAsync gcsURI net).1 = true ∧
    ((∃ body, (recognizeObjectAPIAsync gcsURI net).2 = Except.ok body) ↔
      (∃ body, net = HttpOutcome.response 200 body)) ∧
    (∀ body, net = HttpOutcome.response 200 body →
      (recognizeObjectAPIAsync gcsURI net).2 = Except.ok body) ∧
    (∀ cause, net = HttpOutcome.transportError cause →
      (recognizeObjectAPIAsync gcsURI net).2 = Except.error (APIError.network cause)) ∧
    (∀ statusCode body, net = HttpOutcome.response statusCode body → statusCode ≠ 200 →
      (recognizeObjectAPIAsync gcsURI net).2 =
        Except.error (APIError.upstream statusCode)) := by
  have hmain : recognizeObjectAPIAsync gcsURI net =
      match net with
      | HttpOutcome.transportError cause =>
        (true, Except.error (APIError.network cause))
      | HttpOutcome.response statusCode body =>
        if statusCode ≠ 200 then (true, Except.error (APIError.upstream statusCode))
        else (true, Except.ok body) := by
    unfold recognizeObjectAPIAsync
    rw [if_neg h1, h2]
    rfl
  rw [hmain]
  cases net with
  | transportError cause =>
    refine ⟨rfl, ?_, ?_, ?_, ?_⟩
    · constructor
      · rintro ⟨body, hb⟩
        cases hb
      · rintro ⟨body, hb⟩
        cases hb
    · intro body hb
      cases hb
    · intro c hc
      injection hc with hcc
      subst hcc
      rfl
    · intro sc body hb
      cases hb
  | response sc body =>
    dsimp only
    by_cases hsc : sc = 200
    · subst hsc
      rw [if_neg (by omega : ¬(200 : Nat) ≠ 200)]
      refine ⟨rfl, ?_, ?_, ?_, ?_⟩
      · constructor
        · rintro ⟨b2, hb⟩
          dsimp only at hb
          injection hb with hbb
          subst hbb
          exact ⟨body, rfl⟩
        · rintro ⟨b2, hb⟩
          injection hb with hs hb2
          subst hb2
          exact ⟨body, rfl⟩
      · intro b2 hb
        injection hb with hs hb2
        subst hb2
        rfl
      · intro c hc
        cases hc
      · intro sc2 b2 hb hne
        injection hb with hs hb2
        subst hs
        exact absurd rfl hne
    · rw [if_pos (by omega : sc ≠ 200)]
      refine ⟨rfl, ?_, ?_, ?_, ?_⟩
      · constructor
        · rintro ⟨b2, hb⟩
          cases hb
        · rintro ⟨b2, hb⟩
          injection hb with hs hb2
          exact absurd hs hsc
      · intro b2 hb
        injection hb with hs hb2
        exact absurd hs hsc
      · intro c hc
        cases hc
      · intro sc2 b2 hb hne
        injection hb with hs hb2
        subst hs
        rfl

/-- Witness for C6: a 200 response on a valid URI resolves with its body. -/
theorem recognizeObjectAPIAsync_outcomes_witness :
    (recognizeObjectAPIAsync "gs://b/f.jpg" (HttpOutcome.response 200 "ok")).2 =
      Except.ok "ok" :=
  (recognizeObjectAPIAsync_outcomes "gs://b/f.jpg" (HttpOutcome.response 200 "ok")
    (by decide) (by decide)).2.2.1 "ok" rfl

/-- Function `recognizeObjects` (app.js lines 101–119): call the inference API, parse
the body into a `VisionResponse` (JS `JSON.parse` of the body is modelled by
the ambient `parseJson`), and — the `.catch` on line 114 — return the empty
response on any error raised along the way. -/
def recognizeObjects (gcsPath : String) (net : HttpOutcome)
    (parseJson : String → RawJson) : VisionResponse :=
  match (recognizeObjectAPIAsync gcsPath net).2 with
  | Except.ok body =>
    match createVisionResponse (parseJson body) with
    | Except.ok resp => resp
    | Except.error _ => VisionResponse.empty
  | Except.error _ => VisionResponse.empty

/-- Function `processOneFile` (app.js lines 61–72), the spec's
`FileProcessor.processOne`: build the `gs://<bucket>/<file>` URI, obtain the
vision response, and search it for each configured label, yielding the
logged (label, found) pairs. -/
def processOneFile (labels : List String) (bucketName fileName : String)
    (net : HttpOutcome) (parseJson : String → RawJson) : List (String × Bool) :=
  let visionResponse :=
    recognizeObjects ("gs://" ++ bucketName ++ "/" ++ fileName) net parseJson
  labels.map (fun label => (label, findObject label visionResponse))

/-- The inference call for one URI fails with some error kind: invalid
input, transport error, non-200 status, or a parse error on the body. -/
def inferenceCallFails (gcsPath : String) (net : HttpOutcome)
    (parseJson : String → RawJson) : Bool :=
  match (recognizeObjectAPIAsync gcsPath net).2 with
  | Except.error _ => true
  | Except.ok body =>
    match createVisionResponse (parseJson body) with
    | Except.error _ => true
    | Except.ok _ => false

/-- C7: when the inference call for a file fails with any of the error
kinds, `processOneFile` completes with the empty response substituted: it
reports every configured label as not found, exactly as for a file with no
detections, and no error reaches the caller. -/
theorem processOneFile_swallows_errors (labels : List String)
    (bucketName fileName : String) (net : HttpOutcome)
    (parseJson : String → RawJson)
    (h : inferenceCallFails ("gs://" ++ bucketName ++ "/" ++ fileName) net parseJson
      = true) :
    recognizeObjects ("gs://" ++ bucketName ++ "/" ++ fileName) net parseJson =
      VisionResponse.empty ∧
    processOneFile labels bucketName fileName net parseJson =
      labels.map (fun label => (label, false)) := by
  have hro : recognizeObjects ("gs://" ++ bucketName ++ "/" ++ fileName) net parseJson =
      VisionResponse.empty := by
    unfold inferenceCallFails at h
    unfold recognizeObjects
    cases hapi : (recognizeObjectAPIAsync ("gs://" ++ bucketName ++ "/" ++ fileName) net).2 with
    | error e => rfl
    | ok body =>
      rw [hapi] at h
      dsimp only at h ⊢
      cases hcv : createVisionResponse (parseJson body) with
      | error e => rfl
      | ok resp =>
        rw [hcv] at h
        dsimp only at h
        cases h
  refine ⟨hro, ?_⟩
  unfold processOneFile
  rw [hro]
  have hfo : ∀ label : String, findObject label VisionResponse.empty = false :=
    fun _ => rfl
  simp only [hfo]

/-- Witness for C7: a 500 answer from the inference endpoint leaves the file
indistinguishable from one with no detections. -/
theorem processOneFile_swallows_errors_witness :
    recognizeObjects ("gs://" ++ "b" ++ "/" ++ "f.jpg")
        (HttpOutcome.response 500 "oops") (fun _ => RawJson.invalid) =
      VisionResponse.empty ∧
    processOneFile ["car"] "b" "f.jpg"
        (HttpOutcome.response 500 "oops") (fun _ => RawJson.invalid) =
      [("car", false)] :=
  processOneFile_swallows_errors ["car"] "b" "f.jpg"
    (HttpOutcome.response 500 "oops") (fun _ => RawJson.invalid) (by decide)

/-- One iteration of the `files.forEach` body of `processAllFiles` (app.js
lines 46–53), acting on the pair (trace of file names passed to
`processOneFile`, value of the closed-over counter `i`): the file is
processed only while `i < 2`, and `i` is incremented for every listed
file. -/
def processAllFilesStep (acc : List String × Nat) (file : String) :
    List String × Nat :=
  (if acc.2 < 2 then acc.1 ++ [file] else acc.1, acc.2 + 1)

/-- Function `processAllFiles` (app.js lines 40–56), the spec's
`BucketScanner.scanBucket`, as the trace of file names passed to
`processOneFile` together with the final value of the counter `i`, which
starts at 1. -/
def processAllFilesTrace (files : List String) : List String × Nat :=
  files.foldl processAllFilesStep ([], 1)

theorem foldl_step_saturated (files : List String) :
    ∀ (ps : List String) (n : Nat), 2 ≤ n →
      files.foldl processAllFilesStep (ps, n) = (ps, n + files.length) := by
  induction files with
  | nil =>
    intro ps n hn
    simp
  | cons f rest ih =>
    intro ps n hn
    rw [List.foldl_cons]
    have hlt : ¬(n < 2) := by omega
    have hstep : processAllFilesStep (ps, n) f = (ps, n + 1) := by
      simp [processAllFilesStep, hlt]
    rw [hstep, ih ps (n + 1) (by omega)]
    have : n + 1 + rest.length = n + (rest.length + 1) := by omega
    rw [this]
    rfl

/-- C8: only the first listed object (in listing order) is passed to
`processOneFile`; every listed object is counted (the counter, started at 1,
is incremented once per object), and an empty listing processes no file. -/
theorem processAllFiles_first_only (files : List String) :
    processAllFilesTrace files = (files.take 1, files.length + 1) := by
  cases files with
  | nil => rfl
  | cons f rest =>
    rw [processAllFilesTrace, List.foldl_cons]
    have hstep : processAllFilesStep ([], 1) f = ([f], 2) := rfl
    rw [hstep, foldl_step_saturated rest [f] 2 (by omega)]
    have hlen : 2 + rest.length = (f :: rest).length + 1 := by
      simp
      omega
    rw [hlen]
    rfl
